import Mathlib

/-!
Verification development for the Student Account Management System
(`src/src/accounting/index.js`), a Node.js port of a legacy COBOL ledger.

The JavaScript code is shallowly embedded:
* a JavaScript number is modelled by `JSNum` (`nan`, the two infinities, or an
  exact rational `fin q`); the arithmetic and comparisons used by the program
  (`+`, `-`, `<`, `>`, `>=`, `isNaN`, `Math.round`) are given their ECMAScript
  semantics on this type;
* `parseFloat` is embedded following the ECMAScript definition: skip leading
  whitespace, then the longest prefix matching an optional sign followed by
  `Infinity` or a decimal literal with optional fraction and exponent;
  trailing characters are ignored; no valid prefix yields `NaN`;
* `DataManager.write` / `getFormattedBalance` and the three
  `AccountOperations` methods become pure functions; a thrown JavaScript
  `Error` becomes the `Except.error` branch carrying the error message;
* `Number.prototype.toFixed(2)` is embedded as rounding to an integer number
  of cents (round half towards positive infinity, which for the non-negative
  values occurring here is round half away from zero) followed by decimal
  rendering, and `String.prototype.padStart(9, '0')` pads with `'0'` on the
  left up to length 9;
* the `run` menu loop is modelled one iteration at a time by `runStep`,
  dispatching on the choice string exactly like the `switch` statement; an
  uncaught exception escaping the loop is the `Except.error` branch.
-/

/-- Model of a JavaScript number: `NaN`, `Infinity`, `-Infinity`, or a finite
value, represented exactly as a rational. -/
inductive JSNum where
  | nan
  | inf
  | neginf
  | fin (q : ℚ)
deriving DecidableEq

namespace JSNum

/-- JavaScript `isNaN` on a number. -/
def jIsNaN : JSNum → Bool
  | nan => true
  | _ => false

/-- JavaScript `<` on numbers: `false` whenever an operand is `NaN`. -/
def jlt : JSNum → JSNum → Bool
  | nan, _ => false
  | _, nan => false
  | inf, _ => false
  | neginf, neginf => false
  | neginf, _ => true
  | fin _, inf => true
  | fin _, neginf => false
  | fin a, fin b => decide (a < b)

/-- JavaScript `>`: `a > b` holds exactly when `b < a`. -/
def jgt (a b : JSNum) : Bool := jlt b a

/-- JavaScript `>=`: `false` whenever an operand is `NaN`, otherwise the
negation of `<`. -/
def jge : JSNum → JSNum → Bool
  | nan, _ => false
  | _, nan => false
  | a, b => !(jlt a b)

/-- JavaScript addition. -/
def jadd : JSNum → JSNum → JSNum
  | nan, _ => nan
  | _, nan => nan
  | inf, neginf => nan
  | neginf, inf => nan
  | inf, _ => inf
  | _, inf => inf
  | neginf, _ => neginf
  | _, neginf => neginf
  | fin a, fin b => fin (a + b)

/-- JavaScript unary minus. -/
def jneg : JSNum → JSNum
  | nan => nan
  | inf => neginf
  | neginf => inf
  | fin q => fin (-q)

/-- JavaScript subtraction, `a - b = a + (-b)`. -/
def jsub (a b : JSNum) : JSNum := jadd a (jneg b)

end JSNum

open JSNum

/-- `Math.round`: round half towards positive infinity, `⌊q + 1/2⌋`. -/
def roundHalfUp (q : ℚ) : ℤ := ⌊q + 1/2⌋

/-- `Math.round(x * 100) / 100`, the 2-decimal rounding performed by
`DataManager.write` before storing; `NaN` and infinities pass through. -/
def jround2 : JSNum → JSNum
  | nan => nan
  | inf => inf
  | neginf => neginf
  | fin q => fin ((roundHalfUp (100 * q) : ℚ) / 100)

/-- The storage upper bound `999999.99` (COBOL `PIC 9(6)V99`). -/
def maxBalance : ℚ := 999999.99

/-- `this.storageBalance = 1000.00` in the `DataManager` constructor. -/
def initialBalance : JSNum := fin 1000

/-- `DataManager.write(balance)`.  The JavaScript guard is
`typeof balance !== 'number' || balance < 0 || balance > 999999.99`; the
domain `JSNum` contains only numbers, so the `typeof` disjunct is `false`
here and the comparisons keep their `NaN`-is-never-less/greater semantics.
On success the rounded value replaces the stored balance; on failure
`Error('Invalid balance value')` is thrown. -/
def write (balance : JSNum) : Except String JSNum :=
  if jlt balance (fin 0) || jgt balance (fin maxBalance) then
    .error "Invalid balance value"
  else
    .ok (jround2 balance)

/-- The reversed decimal digits of a natural number (`[]` for `0`). -/
def natToRevDigits (n : ℕ) : List Char :=
  if h : n = 0 then []
  else Nat.digitChar (n % 10) :: natToRevDigits (n / 10)
termination_by n
decreasing_by exact Nat.div_lt_self (Nat.pos_of_ne_zero h) (by norm_num)

/-- Decimal rendering of a natural number. -/
def natRepr (n : ℕ) : String :=
  if n = 0 then "0" else String.mk (natToRevDigits n).reverse

/-- Exactly-two-digit rendering of a fraction-of-a-unit count below 100. -/
def twoFrac (m : ℕ) : String :=
  if m < 10 then "0" ++ natRepr m else natRepr m

/-- Decimal rendering of a non-negative amount given in cents, with exactly
two digits after the decimal point. -/
def centsToString (c : ℕ) : String :=
  natRepr (c / 100) ++ "." ++ twoFrac (c % 100)

/-- `q.toFixed(2)` on a finite number: the ECMAScript algorithm renders the
integer `n` minimising `|n / 100 - |q||` (ties to the larger `n`, i.e. half
away from zero), prefixing `-` for negative inputs. -/
def toFixed2 (q : ℚ) : String :=
  if q < 0 then "-" ++ centsToString (roundHalfUp (100 * (-q))).toNat
  else centsToString (roundHalfUp (100 * q)).toNat

/-- `x.toFixed(2)` on an arbitrary JavaScript number. -/
def jToFixed2 : JSNum → String
  | nan => "NaN"
  | inf => "Infinity"
  | neginf => "-Infinity"
  | fin q => toFixed2 q

/-- `s.padStart(9, '0')`. -/
def padStart9 (s : String) : String :=
  String.mk (List.replicate (9 - s.data.length) '0' ++ s.data)

/-- The expression `x.toFixed(2).padStart(9, '0')`, used by
`getFormattedBalance`, `viewBalance` and the credit/debit success messages. -/
def fmt9 (b : JSNum) : String := padStart9 (jToFixed2 b)

/-- `DataManager.getFormattedBalance()` applied to the stored balance. -/
def getFormattedBalance (b : JSNum) : String := fmt9 b

/-- Whitespace recognised by `parseFloat` before the number. -/
def isWsChar (c : Char) : Bool :=
  c = ' ' || c = '\t' || c = '\n' || c = '\r'

/-- Value of a list of decimal digit characters, most significant first. -/
def digitsVal (ds : List Char) : ℕ :=
  ds.foldl (fun a c => 10 * a + (c.toNat - '0'.toNat)) 0

/-- Kind of a `parseFloat` result: no valid prefix, an infinity, or a finite
decimal literal. -/
inductive PKind where
  | nanK
  | infK
  | finK
deriving DecidableEq

/-- Integer skeleton of a `parseFloat` result: kind, sign, the mantissa
digits read as an integer, and a power-of-ten scale.  This part of the
computation involves only characters and integers. -/
structure PF where
  kind : PKind
  neg : Bool
  mant : ℕ
  scale : ℤ
deriving DecidableEq

/-- Exponent digits after `e`/`E` and an optional sign; an empty digit run
means the exponent part is not consumed, leaving the exponent at `0`. -/
def expDigits (t : List Char) (neg : Bool) : ℤ :=
  let ds := t.takeWhile Char.isDigit
  if ds.isEmpty then 0
  else if neg then -(digitsVal ds : ℤ) else (digitsVal ds : ℤ)

/-- Exponent part of a decimal literal, read from the characters following
the mantissa. -/
def expVal : List Char → ℤ
  | c :: t =>
    if c = 'e' || c = 'E' then
      if t.head? = some '+' then expDigits t.tail false
      else if t.head? = some '-' then expDigits t.tail true
      else expDigits t false
    else 0
  | [] => 0

/-- `parseFloat` after the optional sign: `Infinity`, or integer digits, an
optional `.`-separated fraction, and an optional exponent; `NaN` when no
digit was read on either side of the point. -/
def parseCoreAfterSign (cs : List Char) (neg : Bool) : PF :=
  if cs.take 8 = "Infinity".data then ⟨.infK, neg, 0, 0⟩
  else
    let ip := cs.takeWhile Char.isDigit
    let r1 := cs.dropWhile Char.isDigit
    let fp := if r1.head? = some '.' then r1.tail.takeWhile Char.isDigit else []
    let r2 := if r1.head? = some '.' then r1.tail.dropWhile Char.isDigit else r1
    if ip.isEmpty && fp.isEmpty then ⟨.nanK, neg, 0, 0⟩
    else ⟨.finK, neg, digitsVal (ip ++ fp), expVal r2 - fp.length⟩

/-- Integer skeleton of `parseFloat`: whitespace, optional sign, body. -/
def parseCore (s : String) : PF :=
  let cs := s.data.dropWhile isWsChar
  if cs.head? = some '-' then parseCoreAfterSign cs.tail true
  else if cs.head? = some '+' then parseCoreAfterSign cs.tail false
  else parseCoreAfterSign cs false

/-- Powers of ten with an integer exponent. -/
def pow10 (e : ℤ) : ℚ :=
  if 0 ≤ e then (10 : ℚ) ^ e.toNat else ((10 : ℚ) ^ (-e).toNat)⁻¹

/-- Numeric value of a `parseFloat` skeleton. -/
def interpPF (p : PF) : JSNum :=
  match p.kind with
  | .nanK => nan
  | .infK => if p.neg then neginf else inf
  | .finK =>
    let v : ℚ := (p.mant : ℚ) * pow10 p.scale
    if p.neg then fin (-v) else fin v

/-- ECMAScript `parseFloat`. -/
def parseFloat (s : String) : JSNum := interpPF (parseCore s)

/-- `AccountOperations.creditAccount`: parse the prompted amount, reject
`NaN` or negative input with a fixed message and no write, otherwise add to
the balance read from the `DataManager` and write the sum back, reporting
the new balance.  `Except.error` is the `Error` thrown by `write` escaping
the method uncaught. -/
def creditAccount (amountStr : String) (bal : JSNum) :
    Except String (String × JSNum) :=
  let amount := parseFloat amountStr
  if jIsNaN amount || jlt amount (fin 0) then
    .ok ("Invalid amount. Please enter a positive number.", bal)
  else
    let finalBalance := jadd bal amount
    match write finalBalance with
    | .error e => .error e
    | .ok stored =>
      .ok ("Amount credited. New balance: " ++ fmt9 finalBalance, stored)

/-- `AccountOperations.debitAccount`: parse and validate as for credit, then
apply the overdraft guard `finalBalance >= amount`; on success subtract and
write back, otherwise report insufficient funds and leave the balance
untouched. -/
def debitAccount (amountStr : String) (bal : JSNum) :
    Except String (String × JSNum) :=
  let amount := parseFloat amountStr
  if jIsNaN amount || jlt amount (fin 0) then
    .ok ("Invalid amount. Please enter a positive number.", bal)
  else
    if jge bal amount then
      let newBalance := jsub bal amount
      match write newBalance with
      | .error e => .error e
      | .ok stored =>
        .ok ("Amount debited. New balance: " ++ fmt9 newBalance, stored)
    else
      .ok ("Insufficient funds for this debit.", bal)

/-- `AccountOperations.viewBalance`: the single line it logs. -/
def viewBalance (bal : JSNum) : String := "Current balance: " ++ fmt9 bal

/-- A credit or debit transaction with its raw prompt input. -/
inductive TxOp where
  | credit (s : String)
  | debit (s : String)

/-- Stored balance after one transaction.  When the operation throws
(`Except.error`), `DataManager.write` raised before assigning
`storageBalance`, so the stored balance is unchanged. -/
def applyTx (b : JSNum) : TxOp → JSNum
  | .credit s =>
    match creditAccount s b with
    | .ok (_, b2) => b2
    | .error _ => b
  | .debit s =>
    match debitAccount s b with
    | .ok (_, b2) => b2
    | .error _ => b

/-- Stored balance after a sequence of transactions on a fresh ledger. -/
def applyTxs (ops : List TxOp) : JSNum :=
  ops.foldl applyTx initialBalance

/-- The stored balance holds a whole number of cents between `0` and
`999999.99`. -/
def balInv (b : JSNum) : Prop :=
  ∃ c : ℕ, c ≤ 99999999 ∧ b = fin ((c : ℚ) / 100)

/-- State of `MainProgram.run`: the `DataManager` balance and
`continueFlag`. -/
structure LoopState where
  bal : JSNum
  continueFlag : Bool
deriving DecidableEq

/-- One iteration of the `run` loop: dispatch on the choice string like the
`switch`; `amountInput` is the answer the prompt would return inside the
credit/debit branches.  The result carries the logged lines and the next
state; `Except.error` is an exception escaping the loop (the loop has no
handler, so it aborts the program). -/
def runStep (choice amountInput : String) (st : LoopState) :
    Except String (List String × LoopState) :=
  if choice = "1" then
    .ok ([viewBalance st.bal], st)
  else if choice = "2" then
    match creditAccount amountInput st.bal with
    | .error e => .error e
    | .ok (msg, b) => .ok ([msg], ⟨b, st.continueFlag⟩)
  else if choice = "3" then
    match debitAccount amountInput st.bal with
    | .error e => .error e
    | .ok (msg, b) => .ok ([msg], ⟨b, st.continueFlag⟩)
  else if choice = "4" then
    .ok ([], ⟨st.bal, false⟩)
  else
    .ok (["Invalid choice, please select 1-4."], st)

/-! ### Basic facts about the embedded operations -/

theorem maxBalance_eq : maxBalance = 99999999 / 100 := by
  norm_num [maxBalance]

theorem jlt_fin_zero_eq_false (q : ℚ) (h : 0 ≤ q) : jlt (fin q) (fin 0) = false := by
  simp only [jlt, decide_eq_false_iff_not]
  exact not_lt.mpr h

theorem jgt_fin_max_eq_false (q : ℚ) (h : q ≤ maxBalance) :
    jgt (fin q) (fin maxBalance) = false := by
  simp only [jgt, jlt, decide_eq_false_iff_not]
  exact not_lt.mpr h

theorem write_fin_ok (q : ℚ) (h0 : 0 ≤ q) (h1 : q ≤ maxBalance) :
    write (fin q) = .ok (fin ((roundHalfUp (100 * q) : ℚ) / 100)) := by
  rw [write, jlt_fin_zero_eq_false q h0, jgt_fin_max_eq_false q h1]
  rfl

theorem write_fin_overflow (q : ℚ) (h : maxBalance < q) :
    write (fin q) = .error "Invalid balance value" := by
  have h3 : jgt (fin q) (fin maxBalance) = true := by
    simp only [jgt, jlt, decide_eq_true_eq]
    exact h
  rw [write, h3]
  simp

theorem write_inf : write inf = .error "Invalid balance value" := rfl

theorem write_neginf : write neginf = .error "Invalid balance value" := rfl

theorem roundHalfUp_intCast (n : ℤ) : roundHalfUp (n : ℚ) = n := by
  rw [roundHalfUp, Int.floor_int_add]
  norm_num

theorem cents_roundtrip (c : ℕ) : roundHalfUp (100 * ((c : ℚ) / 100)) = c := by
  have h : (100 : ℚ) * ((c : ℚ) / 100) = ((c : ℤ) : ℚ) := by
    push_cast
    field_simp
  rw [h, roundHalfUp_intCast]

theorem roundHalfUp_nonneg (q : ℚ) (h : 0 ≤ q) : 0 ≤ roundHalfUp q :=
  Int.floor_nonneg.mpr (by linarith)

theorem roundHalfUp_le_cents (q : ℚ) (h : q ≤ maxBalance) :
    roundHalfUp (100 * q) ≤ 99999999 := by
  rw [roundHalfUp]
  have hm : maxBalance = 99999999 / 100 := maxBalance_eq
  have h2 : (100 : ℚ) * q + 1/2 < ((100000000 : ℤ) : ℚ) := by
    rw [hm] at h
    push_cast
    linarith
  have h3 := Int.floor_lt.mpr h2
  omega

theorem balInv_round2 (q : ℚ) (h0 : 0 ≤ q) (h1 : q ≤ maxBalance) :
    balInv (fin ((roundHalfUp (100 * q) : ℚ) / 100)) := by
  have h2 : 0 ≤ roundHalfUp (100 * q) := roundHalfUp_nonneg _ (by positivity)
  refine ⟨(roundHalfUp (100 * q)).toNat, ?_, ?_⟩
  · have h3 := roundHalfUp_le_cents q h1
    omega
  · congr 1
    rw [← Int.cast_natCast, Int.toNat_of_nonneg h2]

theorem amount_cases (a : JSNum) (hn : jIsNaN a = false)
    (hneg : jlt a (fin 0) = false) :
    a = inf ∨ ∃ x : ℚ, 0 ≤ x ∧ a = fin x := by
  cases a with
  | nan => simp [jIsNaN] at hn
  | inf => exact .inl rfl
  | neginf => simp [jlt] at hneg
  | fin x =>
    refine .inr ⟨x, ?_, rfl⟩
    simp only [jlt, decide_eq_false_iff_not] at hneg
    exact not_lt.mp hneg

theorem jge_eq_false_of_jgt (a b : JSNum) (h : jgt a b = true) : jge b a = false := by
  cases a <;> cases b <;> simp_all [jgt, jlt, jge]

/-! ### Concrete evaluations of `parseFloat` and of the formatter -/

theorem parseFloat_zero : parseFloat "0" = fin 0 := by
  have h : parseCore "0" = ⟨.finK, false, 0, 0⟩ := by decide
  rw [parseFloat, h]
  simp [interpPF, pow10]

theorem parseFloat_1000 : parseFloat "1000" = fin 1000 := by
  have h : parseCore "1000" = ⟨.finK, false, 1000, 0⟩ := by decide
  rw [parseFloat, h]
  simp [interpPF, pow10]

theorem parseFloat_1500 : parseFloat "1500" = fin 1500 := by
  have h : parseCore "1500" = ⟨.finK, false, 1500, 0⟩ := by decide
  rw [parseFloat, h]
  simp [interpPF, pow10]

theorem parseFloat_999999 : parseFloat "999999" = fin 999999 := by
  have h : parseCore "999999" = ⟨.finK, false, 999999, 0⟩ := by decide
  rw [parseFloat, h]
  simp [interpPF, pow10]

theorem parseFloat_abc : parseFloat "abc" = nan := by
  have h : parseCore "abc" = ⟨.nanK, false, 0, 0⟩ := by decide
  rw [parseFloat, h]
  rfl

theorem fmt9_zero : fmt9 (fin 0) = "000000.00" := by
  have h : roundHalfUp (100 * 0) = 0 := by rw [roundHalfUp]; norm_num
  rw [fmt9, jToFixed2, toFixed2, if_neg (by norm_num), h]
  simp [centsToString, natRepr, natToRevDigits, twoFrac, padStart9]

/-! ### Claim theorems -/

/-- **C2.** For every starting balance and every parsed debit amount strictly
greater than the current balance, `debitAccount` reports exactly
`"Insufficient funds for this debit."` and returns the stored balance
unchanged — the overdraft branch performs no write at all. -/
theorem c2_insufficient_funds_rejection (input : String) (b : JSNum)
    (hn : jIsNaN (parseFloat input) = false)
    (hneg : jlt (parseFloat input) (fin 0) = false)
    (hgt : jgt (parseFloat input) b = true) :
    debitAccount input b = .ok ("Insufficient funds for this debit.", b) := by
  have hge : jge b (parseFloat input) = false := jge_eq_false_of_jgt _ _ hgt
  simp only [debitAccount, hn, hneg, hge, Bool.or_self, Bool.false_eq_true,
    if_false]

/-- **C2 witness:** `debit("1500")` on the fresh balance `1000` is rejected
with the exact message and an unchanged balance. -/
theorem c2_witness :
    debitAccount "1500" (fin 1000) =
      .ok ("Insufficient funds for this debit.", fin 1000) :=
  c2_insufficient_funds_rejection "1500" (fin 1000)
    (by rw [parseFloat_1500]; rfl)
    (by rw [parseFloat_1500]; simp [jlt])
    (by rw [parseFloat_1500]; simp only [jgt, jlt, decide_eq_true_eq]; norm_num)

/-- **C3 (code bug).** `DataManager.write` accepts `NaN`: the guard
`balance < 0 || balance > 999999.99` is false for `NaN` because both
comparisons are false, so `write(NaN)` succeeds and stores `NaN` instead of
rejecting it — while the two infinities are rejected as the claim states. -/
theorem c3_write_accepts_nan :
    write nan = .ok nan ∧
    write inf = .error "Invalid balance value" ∧
    write neginf = .error "Invalid balance value" :=
  ⟨rfl, rfl, rfl⟩

/-- **C4.** Any input whose parse is `NaN` or negative makes both credit and
debit report exactly `"Invalid amount. Please enter a positive number."`
and return the stored balance unchanged, with no write. -/
theorem c4_invalid_input_rejection (input : String) (b : JSNum)
    (h : (jIsNaN (parseFloat input) || jlt (parseFloat input) (fin 0)) = true) :
    creditAccount input b =
      .ok ("Invalid amount. Please enter a positive number.", b) ∧
    debitAccount input b =
      .ok ("Invalid amount. Please enter a positive number.", b) := by
  constructor
  · simp only [creditAccount, h, if_true]
  · simp only [debitAccount, h, if_true]

/-- **C4 witness:** `"abc"` parses to `NaN` and is rejected by both
operations on the fresh balance. -/
theorem c4_witness :
    creditAccount "abc" (fin 1000) =
      .ok ("Invalid amount. Please enter a positive number.", fin 1000) ∧
    debitAccount "abc" (fin 1000) =
      .ok ("Invalid amount. Please enter a positive number.", fin 1000) :=
  c4_invalid_input_rejection "abc" (fin 1000) (by rw [parseFloat_abc]; rfl)

/-- **C5.** The overdraft comparison is inclusive: debiting an amount equal
to the (non-negative) current balance succeeds, stores exactly `0`, and
reports the success message with the zero balance. -/
theorem c5_debit_full_balance (input : String) (q : ℚ) (hq : 0 ≤ q)
    (hp : parseFloat input = fin q) :
    debitAccount input (fin q) =
      .ok ("Amount debited. New balance: 000000.00", fin 0) := by
  have hzero : q + -q = 0 := by ring
  have hge : jge (fin q) (fin q) = true := by
    simp [jge, jlt]
  have hw : write (fin 0) = .ok (fin 0) := by
    have h := write_fin_ok 0 le_rfl (by rw [maxBalance_eq]; norm_num)
    rw [h]
    norm_num [roundHalfUp]
  simp only [debitAccount, hp, jIsNaN, jlt_fin_zero_eq_false q hq, hge,
    Bool.or_self, Bool.false_eq_true, if_false, if_true, jsub, jneg, jadd,
    hzero, hw, fmt9_zero]
  rfl

/-- **C5 witness:** on the fresh ledger, `debit("1000")` reports
`"Amount debited. New balance: 000000.00"` and stores `0`. -/
theorem c5_witness :
    debitAccount "1000" (fin 1000) =
      .ok ("Amount debited. New balance: 000000.00", fin 0) :=
  c5_debit_full_balance "1000" 1000 (by norm_num) parseFloat_1000

/-! ### Preservation of the balance invariant -/

theorem cents_le_maxBalance (c : ℕ) (hc : c ≤ 99999999) :
    ((c : ℚ)) / 100 ≤ maxBalance := by
  rw [maxBalance_eq]
  gcongr
  exact_mod_cast hc

theorem credit_preserves_balInv (s : String) (b : JSNum) (h : balInv b) :
    balInv (applyTx b (.credit s)) := by
  obtain ⟨c, hc, rfl⟩ := h
  have hq0 : (0 : ℚ) ≤ (c : ℚ) / 100 := by positivity
  have hinv : balInv (fin ((c : ℚ) / 100)) := ⟨c, hc, rfl⟩
  by_cases hg : (jIsNaN (parseFloat s) || jlt (parseFloat s) (fin 0)) = true
  · simp only [applyTx, creditAccount, hg, if_true]
    exact hinv
  · have hg' := eq_false_of_ne_true hg
    have hn := (Bool.or_eq_false_iff.mp hg').1
    have hneg := (Bool.or_eq_false_iff.mp hg').2
    rcases amount_cases _ hn hneg with ha | ⟨x, hx0, ha⟩
    · rw [ha] at hn hneg
      simp only [applyTx, creditAccount, ha, hn, hneg, Bool.or_self,
        Bool.false_eq_true, if_false, jadd, write_inf]
      exact hinv
    · rw [ha] at hn hneg
      by_cases hov : (c : ℚ) / 100 + x ≤ maxBalance
      · have hw := write_fin_ok ((c : ℚ) / 100 + x) (add_nonneg hq0 hx0) hov
        simp only [applyTx, creditAccount, ha, hn, hneg, Bool.or_self,
          Bool.false_eq_true, if_false, jadd, hw]
        exact balInv_round2 _ (add_nonneg hq0 hx0) hov
      · have hw := write_fin_overflow ((c : ℚ) / 100 + x) (not_le.mp hov)
        simp only [applyTx, creditAccount, ha, hn, hneg, Bool.or_self,
          Bool.false_eq_true, if_false, jadd, hw]
        exact hinv

theorem debit_preserves_balInv (s : String) (b : JSNum) (h : balInv b) :
    balInv (applyTx b (.debit s)) := by
  obtain ⟨c, hc, rfl⟩ := h
  have hq0 : (0 : ℚ) ≤ (c : ℚ) / 100 := by positivity
  have hqm := cents_le_maxBalance c hc
  have hinv : balInv (fin ((c : ℚ) / 100)) := ⟨c, hc, rfl⟩
  by_cases hg : (jIsNaN (parseFloat s) || jlt (parseFloat s) (fin 0)) = true
  · simp only [applyTx, debitAccount, hg, if_true]
    exact hinv
  · have hg' := eq_false_of_ne_true hg
    have hn := (Bool.or_eq_false_iff.mp hg').1
    have hneg := (Bool.or_eq_false_iff.mp hg').2
    rcases amount_cases _ hn hneg with ha | ⟨x, hx0, ha⟩
    · rw [ha] at hn hneg
      simp only [applyTx, debitAccount, ha, hn, hneg, Bool.or_self,
        Bool.false_eq_true, if_false, jge, jlt, Bool.not_true]
      exact hinv
    · rw [ha] at hn hneg
      by_cases hlt : (c : ℚ) / 100 < x
      · have hge : jge (fin ((c : ℚ) / 100)) (fin x) = false := by
          simp only [jge, jlt, Bool.not_eq_false', decide_eq_true_eq]
          exact hlt
        simp only [applyTx, debitAccount, ha, hn, hneg, Bool.or_self,
          Bool.false_eq_true, if_false, hge]
        exact hinv
      · have hge : jge (fin ((c : ℚ) / 100)) (fin x) = true := by
          simp only [jge, jlt, Bool.not_eq_true', decide_eq_false_iff_not]
          exact hlt
        have h0 : (0 : ℚ) ≤ (c : ℚ) / 100 + -x := by
          have := not_lt.mp hlt
          linarith
        have hm : (c : ℚ) / 100 + -x ≤ maxBalance := by linarith
        have hw := write_fin_ok ((c : ℚ) / 100 + -x) h0 hm
        simp only [applyTx, debitAccount, ha, hn, hneg, Bool.or_self,
          Bool.false_eq_true, if_false, hge, if_true, jsub, jneg, jadd, hw]
        exact balInv_round2 _ h0 hm

theorem tx_preserves_balInv (b : JSNum) (o : TxOp) (h : balInv b) :
    balInv (applyTx b o) := by
  cases o with
  | credit s => exact credit_preserves_balInv s b h
  | debit s => exact debit_preserves_balInv s b h

theorem balInv_initial : balInv initialBalance := by
  refine ⟨100000, by norm_num, ?_⟩
  have h : ((100000 : ℕ) : ℚ) / 100 = 1000 := by norm_num
  rw [initialBalance, h]

/-- **C1.** Every sequence of credit/debit operations with arbitrary input
strings, run on the fresh ledger, keeps the stored balance a whole number of
cents inside `[0, 999999.99]`; and any write whose argument fails the bounds
check is rejected with the `Invalid balance value` error (so the prior
stored value survives, which is how `applyTx` keeps the old balance in the
error branch). -/
theorem c1_balance_invariant :
    (∀ ops : List TxOp, balInv (applyTxs ops)) ∧
    (∀ b : JSNum, (jlt b (fin 0) || jgt b (fin maxBalance)) = true →
      write b = .error "Invalid balance value") := by
  constructor
  · have key : ∀ (ops : List TxOp) (b : JSNum), balInv b →
        balInv (ops.foldl applyTx b) := by
      intro ops
      induction ops with
      | nil => intro b h; exact h
      | cons o t ih =>
        intro b h
        rw [List.foldl_cons]
        exact ih _ (tx_preserves_balInv b o h)
    intro ops
    exact key ops initialBalance balInv_initial
  · intro b hb
    simp only [write, hb, if_true]

/-- **C1 witness:** a concrete transaction sequence keeps the invariant, and
a concrete out-of-bounds write (negative argument) is rejected. -/
theorem c1_witness :
    balInv (applyTxs [TxOp.credit "500", TxOp.debit "1500"]) ∧
    write (fin (-1)) = .error "Invalid balance value" :=
  ⟨c1_balance_invariant.1 _,
   c1_balance_invariant.2 (fin (-1)) (by
    simp only [jlt, jgt, Bool.or_eq_true, decide_eq_true_eq]
    left
    norm_num)⟩

/-! ### The write/format round trip -/

theorem cents_roundtrip_int (n : ℤ) : roundHalfUp (100 * ((n : ℚ) / 100)) = n := by
  have h : (100 : ℚ) * ((n : ℚ) / 100) = ((n : ℤ) : ℚ) := by
    field_simp
  rw [h, roundHalfUp_intCast]

/-- **C7.** Writing any valid `x ∈ [0, 999999.99]` succeeds and stores a
whole number of cents `c` within half a cent of `100·x` (round half away
from zero for these non-negative values), and formatting the stored balance
yields exactly the 2-decimal rendering of the original `x`. -/
theorem c7_write_format_roundtrip (q : ℚ) (h0 : 0 ≤ q) (h1 : q ≤ maxBalance) :
    ∃ c : ℤ, write (fin q) = .ok (fin ((c : ℚ) / 100)) ∧
      100 * q - 1/2 ≤ (c : ℚ) ∧ (c : ℚ) ≤ 100 * q + 1/2 ∧
      getFormattedBalance (fin ((c : ℚ) / 100)) = fmt9 (fin q) := by
  refine ⟨roundHalfUp (100 * q), write_fin_ok q h0 h1, ?_, ?_, ?_⟩
  · have h2 := Int.lt_floor_add_one (100 * q + 1/2)
    rw [roundHalfUp]
    push_cast at h2 ⊢
    linarith
  · have h2 := Int.floor_le (100 * q + 1/2)
    rw [roundHalfUp]
    push_cast at h2 ⊢
    linarith
  · have hc0 : 0 ≤ roundHalfUp (100 * q) := roundHalfUp_nonneg _ (by positivity)
    rw [getFormattedBalance, fmt9, fmt9]
    congr 1
    simp only [jToFixed2]
    rw [toFixed2, toFixed2, if_neg (not_lt.mpr h0), if_neg (by
      push_cast [not_lt]
      positivity)]
    rw [cents_roundtrip_int]

/-- **C7 witness:** writing `150.50` stores `15050` cents and the formatted
read-back matches the 2-decimal rendering of `150.50`. -/
theorem c7_witness :
    ∃ c : ℤ, write (fin 150.50) = .ok (fin ((c : ℚ) / 100)) ∧
      100 * 150.50 - 1/2 ≤ (c : ℚ) ∧ (c : ℚ) ≤ 100 * 150.50 + 1/2 ∧
      getFormattedBalance (fin ((c : ℚ) / 100)) = fmt9 (fin 150.50) :=
  c7_write_format_roundtrip 150.50 (by norm_num) (by rw [maxBalance_eq]; norm_num)

/-! ### Zero-amount operations -/

/-- **C9.** Zero is an accepted amount: on any stored balance (a whole
number of cents within bounds), `credit("0")` and `debit("0")` leave the
stored balance unchanged and still report the respective success message
showing the unchanged formatted balance. -/
theorem c9_zero_amount (c : ℕ) (hc : c ≤ 99999999) :
    creditAccount "0" (fin ((c : ℚ) / 100)) =
      .ok ("Amount credited. New balance: " ++ fmt9 (fin ((c : ℚ) / 100)),
        fin ((c : ℚ) / 100)) ∧
    debitAccount "0" (fin ((c : ℚ) / 100)) =
      .ok ("Amount debited. New balance: " ++ fmt9 (fin ((c : ℚ) / 100)),
        fin ((c : ℚ) / 100)) := by
  have hq0 : (0 : ℚ) ≤ (c : ℚ) / 100 := by positivity
  have hqm := cents_le_maxBalance c hc
  have hw : write (fin ((c : ℚ) / 100)) = .ok (fin ((c : ℚ) / 100)) := by
    rw [write_fin_ok _ hq0 hqm, cents_roundtrip, Int.cast_natCast]
  have hadd : (c : ℚ) / 100 + 0 = (c : ℚ) / 100 := add_zero _
  constructor
  · simp only [creditAccount, parseFloat_zero, jIsNaN,
      jlt_fin_zero_eq_false 0 le_rfl, Bool.or_self, Bool.false_eq_true,
      if_false, jadd, hadd, hw]
  · have hge : jge (fin ((c : ℚ) / 100)) (fin 0) = true := by
      simp only [jge, jlt, Bool.not_eq_true', decide_eq_false_iff_not]
      exact not_lt.mpr hq0
    simp only [debitAccount, parseFloat_zero, jIsNaN,
      jlt_fin_zero_eq_false 0 le_rfl, Bool.or_self, Bool.false_eq_true,
      if_false, hge, if_true, jsub, jneg, jadd, neg_zero, hadd, hw]

/-- **C9 witness:** both zero-amount operations on the fresh balance
(`100000` cents) report success and keep the balance. -/
theorem c9_witness :
    creditAccount "0" (fin (((100000 : ℕ) : ℚ) / 100)) =
      .ok ("Amount credited. New balance: " ++
        fmt9 (fin (((100000 : ℕ) : ℚ) / 100)), fin (((100000 : ℕ) : ℚ) / 100)) ∧
    debitAccount "0" (fin (((100000 : ℕ) : ℚ) / 100)) =
      .ok ("Amount debited. New balance: " ++
        fmt9 (fin (((100000 : ℕ) : ℚ) / 100)), fin (((100000 : ℕ) : ℚ) / 100)) :=
  c9_zero_amount 100000 (by norm_num)

/-! ### Fate of each menu dispatch -/

theorem debit_isOk (s : String) (c : ℕ) (hc : c ≤ 99999999) :
    ∃ r, debitAccount s (fin ((c : ℚ) / 100)) = .ok r := by
  have hq0 : (0 : ℚ) ≤ (c : ℚ) / 100 := by positivity
  have hqm := cents_le_maxBalance c hc
  by_cases hg : (jIsNaN (parseFloat s) || jlt (parseFloat s) (fin 0)) = true
  · have hres : debitAccount s (fin ((c : ℚ) / 100)) =
        .ok ("Invalid amount. Please enter a positive number.",
          fin ((c : ℚ) / 100)) := by
      simp only [debitAccount, hg, if_true]
    exact ⟨_, hres⟩
  · have hg' := eq_false_of_ne_true hg
    have hn := (Bool.or_eq_false_iff.mp hg').1
    have hneg := (Bool.or_eq_false_iff.mp hg').2
    rcases amount_cases _ hn hneg with ha | ⟨x, hx0, ha⟩
    · rw [ha] at hn hneg
      have hres : debitAccount s (fin ((c : ℚ) / 100)) =
          .ok ("Insufficient funds for this debit.", fin ((c : ℚ) / 100)) := by
        simp only [debitAccount, ha, hn, hneg, Bool.or_self,
          Bool.false_eq_true, if_false, jge, jlt, Bool.not_true]
      exact ⟨_, hres⟩
    · rw [ha] at hn hneg
      by_cases hlt : (c : ℚ) / 100 < x
      · have hge : jge (fin ((c : ℚ) / 100)) (fin x) = false := by
          simp only [jge, jlt, Bool.not_eq_false', decide_eq_true_eq]
          exact hlt
        have hres : debitAccount s (fin ((c : ℚ) / 100)) =
            .ok ("Insufficient funds for this debit.", fin ((c : ℚ) / 100)) := by
          simp only [debitAccount, ha, hn, hneg, Bool.or_self,
            Bool.false_eq_true, if_false, hge]
        exact ⟨_, hres⟩
      · have hge : jge (fin ((c : ℚ) / 100)) (fin x) = true := by
          simp only [jge, jlt, Bool.not_eq_true', decide_eq_false_iff_not]
          exact hlt
        have h0 : (0 : ℚ) ≤ (c : ℚ) / 100 + -x := by
          have := not_lt.mp hlt
          linarith
        have hm : (c : ℚ) / 100 + -x ≤ maxBalance := by linarith
        have hw := write_fin_ok ((c : ℚ) / 100 + -x) h0 hm
        have hres : debitAccount s (fin ((c : ℚ) / 100)) =
            .ok ("Amount debited. New balance: " ++
                fmt9 (fin ((c : ℚ) / 100 + -x)),
              fin ((roundHalfUp (100 * ((c : ℚ) / 100 + -x)) : ℚ) / 100)) := by
          simp only [debitAccount, ha, hn, hneg, Bool.or_self,
            Bool.false_eq_true, if_false, hge, if_true, jsub, jneg, jadd, hw]
        exact ⟨_, hres⟩

theorem credit_cases (s : String) (c : ℕ) (hc : c ≤ 99999999) :
    (∃ r, creditAccount s (fin ((c : ℚ) / 100)) = .ok r) ∨
    (creditAccount s (fin ((c : ℚ) / 100)) = .error "Invalid balance value" ∧
      jgt (jadd (fin ((c : ℚ) / 100)) (parseFloat s)) (fin maxBalance) = true) := by
  have hq0 : (0 : ℚ) ≤ (c : ℚ) / 100 := by positivity
  by_cases hg : (jIsNaN (parseFloat s) || jlt (parseFloat s) (fin 0)) = true
  · have hres : creditAccount s (fin ((c : ℚ) / 100)) =
        .ok ("Invalid amount. Please enter a positive number.",
          fin ((c : ℚ) / 100)) := by
      simp only [creditAccount, hg, if_true]
    exact .inl ⟨_, hres⟩
  · have hg' := eq_false_of_ne_true hg
    have hn := (Bool.or_eq_false_iff.mp hg').1
    have hneg := (Bool.or_eq_false_iff.mp hg').2
    rcases amount_cases _ hn hneg with ha | ⟨x, hx0, ha⟩
    · rw [ha] at hn hneg
      refine .inr ⟨?_, ?_⟩
      · simp only [creditAccount, ha, hn, hneg, Bool.or_self,
          Bool.false_eq_true, if_false, jadd, write_inf]
      · rw [ha]
        rfl
    · rw [ha] at hn hneg
      by_cases hov : (c : ℚ) / 100 + x ≤ maxBalance
      · have hw := write_fin_ok ((c : ℚ) / 100 + x) (add_nonneg hq0 hx0) hov
        have hres : creditAccount s (fin ((c : ℚ) / 100)) =
            .ok ("Amount credited. New balance: " ++
                fmt9 (fin ((c : ℚ) / 100 + x)),
              fin ((roundHalfUp (100 * ((c : ℚ) / 100 + x)) : ℚ) / 100)) := by
          simp only [creditAccount, ha, hn, hneg, Bool.or_self,
            Bool.false_eq_true, if_false, jadd, hw]
        exact .inl ⟨_, hres⟩
      · have hw := write_fin_overflow ((c : ℚ) / 100 + x) (not_le.mp hov)
        refine .inr ⟨?_, ?_⟩
        · simp only [creditAccount, ha, hn, hneg, Bool.or_self,
            Bool.false_eq_true, if_false, jadd, hw]
        · rw [ha]
          simp only [jadd, jgt, jlt, decide_eq_true_eq]
          exact not_le.mp hov

/-- **C6 counterexample.** On the fresh ledger, selecting menu option `2`
and entering `999999` makes the resulting balance `1000999` exceed
`999999.99`; `DataManager.write` throws, nothing catches the error, and the
loop iteration aborts with it instead of returning to the menu. -/
theorem c6_counterexample :
    runStep "2" "999999" ⟨fin 1000, true⟩ = .error "Invalid balance value" := by
  have hov : maxBalance < 1000 + 999999 := by rw [maxBalance_eq]; norm_num
  have hw := write_fin_overflow (1000 + 999999) hov
  have hcr : creditAccount "999999" (fin 1000) = .error "Invalid balance value" := by
    simp only [creditAccount, parseFloat_999999, jIsNaN,
      jlt_fin_zero_eq_false 999999 (by norm_num), Bool.or_self,
      Bool.false_eq_true, if_false, jadd, hw]
  rw [runStep, if_neg (by decide), if_pos rfl, hcr]

/-- **C6 amended.** With the stored balance a whole number of cents in
bounds, every menu dispatch (view, credit, debit, exit, invalid choice)
returns control to the loop — except a credit whose resulting balance
exceeds `999999.99`: there `write` throws `Invalid balance value` and the
uncaught error terminates the run loop rather than being reported. -/
theorem c6_amended_menu_loop (choice amountInput : String) (c : ℕ)
    (hc : c ≤ 99999999) :
    Except.isOk (runStep choice amountInput ⟨fin ((c : ℚ) / 100), true⟩) = true ∨
    (choice = "2" ∧
      runStep choice amountInput ⟨fin ((c : ℚ) / 100), true⟩ =
        .error "Invalid balance value" ∧
      jgt (jadd (fin ((c : ℚ) / 100)) (parseFloat amountInput))
        (fin maxBalance) = true) := by
  by_cases h1 : choice = "1"
  · subst h1
    left
    rw [runStep, if_pos rfl]
    rfl
  by_cases h2 : choice = "2"
  · subst h2
    rcases credit_cases amountInput c hc with ⟨⟨msg, b⟩, hr⟩ | ⟨herr, hgt⟩
    · left
      rw [runStep, if_neg (by decide), if_pos rfl, hr]
      rfl
    · right
      refine ⟨rfl, ?_, hgt⟩
      rw [runStep, if_neg (by decide), if_pos rfl, herr]
  by_cases h3 : choice = "3"
  · subst h3
    obtain ⟨⟨msg, b⟩, hr⟩ := debit_isOk amountInput c hc
    left
    rw [runStep, if_neg (by decide), if_neg (by decide), if_pos rfl, hr]
    rfl
  by_cases h4 : choice = "4"
  · subst h4
    left
    rw [runStep, if_neg (by decide), if_neg (by decide), if_neg (by decide),
      if_pos rfl]
    rfl
  · left
    rw [runStep, if_neg h1, if_neg h2, if_neg h3, if_neg h4]
    rfl

/-- **C6 witness:** a debit dispatch on the fresh balance returns control to
the menu. -/
theorem c6_witness :
    Except.isOk (runStep "3" "100" ⟨fin (((100000 : ℕ) : ℚ) / 100), true⟩) =
      true ∨
    ("3" = "2" ∧
      runStep "3" "100" ⟨fin (((100000 : ℕ) : ℚ) / 100), true⟩ =
        .error "Invalid balance value" ∧
      jgt (jadd (fin (((100000 : ℕ) : ℚ) / 100)) (parseFloat "100"))
        (fin maxBalance) = true) :=
  c6_amended_menu_loop "3" "100" 100000 (by norm_num)

/-! ### Shape of the formatted balance -/

theorem string_data_append (a b : String) : (a ++ b).data = a.data ++ b.data := rfl

theorem digitChar_isDigit : ∀ d, d < 10 → (Nat.digitChar d).isDigit = true := by
  decide

theorem natToRevDigits_all_digits :
    ∀ n, ∀ ch ∈ natToRevDigits n, ch.isDigit = true := by
  intro n
  induction n using Nat.strong_induction_on with
  | _ n ih =>
    intro ch hch
    rw [natToRevDigits] at hch
    by_cases h : n = 0
    · rw [dif_pos h] at hch
      simp at hch
    · rw [dif_neg h] at hch
      rcases List.mem_cons.mp hch with h2 | h2
      · subst h2
        exact digitChar_isDigit _ (Nat.mod_lt _ (by norm_num))
      · exact ih (n / 10) (Nat.div_lt_self (Nat.pos_of_ne_zero h) (by norm_num))
          ch h2

theorem natToRevDigits_len_le :
    ∀ k n : ℕ, n < 10 ^ k → (natToRevDigits n).length ≤ k := by
  intro k
  induction k with
  | zero =>
    intro n h
    have hn : n = 0 := by omega
    subst hn
    rw [natToRevDigits]
    simp
  | succ k ih =>
    intro n h
    rw [natToRevDigits]
    by_cases h0 : n = 0
    · rw [dif_pos h0]
      simp
    · rw [dif_neg h0]
      simp only [List.length_cons]
      have h1 : n / 10 < 10 ^ k := by
        rw [Nat.div_lt_iff_lt_mul (by norm_num)]
        calc n < 10 ^ (k + 1) := h
        _ = 10 ^ k * 10 := by ring
      have := ih _ h1
      omega

theorem natToRevDigits_len_pos (n : ℕ) (h : n ≠ 0) :
    1 ≤ (natToRevDigits n).length := by
  rw [natToRevDigits, dif_neg h]
  simp

theorem natToRevDigits_len_ge2 (n : ℕ) (h : 10 ≤ n) :
    2 ≤ (natToRevDigits n).length := by
  rw [natToRevDigits, dif_neg (by omega)]
  simp only [List.length_cons]
  have h2 : n / 10 ≠ 0 := by omega
  have := natToRevDigits_len_pos _ h2
  omega

theorem natRepr_all_digits (n : ℕ) :
    ∀ ch ∈ (natRepr n).data, ch.isDigit = true := by
  rw [natRepr]
  by_cases h : n = 0
  · rw [if_pos h]
    intro ch hch
    rw [show ("0" : String).data = ['0'] from rfl] at hch
    simp only [List.mem_singleton] at hch
    subst hch
    decide
  · rw [if_neg h]
    intro ch hch
    rw [show (String.mk (natToRevDigits n).reverse).data =
      (natToRevDigits n).reverse from rfl] at hch
    exact natToRevDigits_all_digits n ch (List.mem_reverse.mp hch)

theorem natRepr_len_le (n k : ℕ) (hk : 1 ≤ k) (h : n < 10 ^ k) :
    (natRepr n).data.length ≤ k := by
  rw [natRepr]
  by_cases h0 : n = 0
  · rw [if_pos h0]
    simpa using hk
  · rw [if_neg h0]
    rw [show (String.mk (natToRevDigits n).reverse).data =
      (natToRevDigits n).reverse from rfl, List.length_reverse]
    exact natToRevDigits_len_le k n h

theorem natRepr_len_pos (n : ℕ) : 1 ≤ (natRepr n).data.length := by
  rw [natRepr]
  by_cases h0 : n = 0
  · rw [if_pos h0]
    simp
  · rw [if_neg h0]
    rw [show (String.mk (natToRevDigits n).reverse).data =
      (natToRevDigits n).reverse from rfl, List.length_reverse]
    exact natToRevDigits_len_pos n h0

theorem natRepr_len_eq1 (n : ℕ) (h : n < 10) : (natRepr n).data.length = 1 :=
  le_antisymm (natRepr_len_le n 1 le_rfl (by simpa using h)) (natRepr_len_pos n)

theorem natRepr_len_eq2 (n : ℕ) (h1 : 10 ≤ n) (h2 : n < 100) :
    (natRepr n).data.length = 2 := by
  refine le_antisymm (natRepr_len_le n 2 (by norm_num) (by simpa using h2)) ?_
  rw [natRepr, if_neg (by omega)]
  rw [show (String.mk (natToRevDigits n).reverse).data =
    (natToRevDigits n).reverse from rfl, List.length_reverse]
  exact natToRevDigits_len_ge2 n h1

theorem twoFrac_len (m : ℕ) (h : m < 100) : (twoFrac m).data.length = 2 := by
  rw [twoFrac]
  by_cases h1 : m < 10
  · rw [if_pos h1, string_data_append, List.length_append,
      show ("0" : String).data.length = 1 from rfl, natRepr_len_eq1 m h1]
  · rw [if_neg h1]
    exact natRepr_len_eq2 m (not_lt.mp h1) h

theorem twoFrac_all_digits (m : ℕ) :
    ∀ ch ∈ (twoFrac m).data, ch.isDigit = true := by
  rw [twoFrac]
  by_cases h1 : m < 10
  · rw [if_pos h1, string_data_append]
    intro ch hch
    rcases List.mem_append.mp hch with h2 | h2
    · rw [show ("0" : String).data = ['0'] from rfl] at h2
      simp only [List.mem_singleton] at h2
      subst h2
      decide
    · exact natRepr_all_digits m ch h2
  · rw [if_neg h1]
    exact natRepr_all_digits m

theorem getFormattedBalance_cents (c : ℕ) :
    getFormattedBalance (fin ((c : ℚ) / 100)) = padStart9 (centsToString c) := by
  have hq0 : (0 : ℚ) ≤ (c : ℚ) / 100 := by positivity
  rw [getFormattedBalance, fmt9]
  congr 1
  simp only [jToFixed2]
  rw [toFixed2, if_neg (not_lt.mpr hq0), cents_roundtrip, Int.toNat_natCast]

theorem centsToString_data (c : ℕ) :
    (centsToString c).data =
      (natRepr (c / 100)).data ++ '.' :: (twoFrac (c % 100)).data := by
  rw [centsToString, string_data_append, string_data_append,
    show ("." : String).data = ['.'] from rfl, List.append_assoc]
  rfl

theorem padStart9_data (s : String) :
    (padStart9 s).data = List.replicate (9 - s.data.length) '0' ++ s.data := rfl

/-- **C8.** For every stored balance (a whole number of cents within
bounds), the formatted balance splits as six digit characters, a decimal
point, and two digit characters — nine characters in total; and on the
fresh ledger `viewBalance` logs exactly `"Current balance: 001000.00"`. -/
theorem c8_formatted_fixed_width :
    (∀ c : ℕ, c ≤ 99999999 →
      ∃ ds fs : List Char,
        (getFormattedBalance (fin ((c : ℚ) / 100))).data = ds ++ '.' :: fs ∧
        ds.length = 6 ∧ fs.length = 2 ∧
        (∀ ch ∈ ds, ch.isDigit = true) ∧ (∀ ch ∈ fs, ch.isDigit = true) ∧
        (getFormattedBalance (fin ((c : ℚ) / 100))).data.length = 9) ∧
    viewBalance initialBalance = "Current balance: 001000.00" := by
  constructor
  · intro c hc
    have hint : c / 100 < 10 ^ 6 := by omega
    have hilen_le := natRepr_len_le (c / 100) 6 (by norm_num) hint
    have hilen_pos := natRepr_len_pos (c / 100)
    have hflen := twoFrac_len (c % 100) (Nat.mod_lt _ (by norm_num))
    have hL : ((natRepr (c / 100)).data ++ '.' :: (twoFrac (c % 100)).data).length =
        (natRepr (c / 100)).data.length + 3 := by
      rw [List.length_append, List.length_cons, hflen]
    have hdata : (getFormattedBalance (fin ((c : ℚ) / 100))).data =
        List.replicate
            (9 - ((natRepr (c / 100)).data ++ '.' :: (twoFrac (c % 100)).data).length)
            '0' ++
          ((natRepr (c / 100)).data ++ '.' :: (twoFrac (c % 100)).data) := by
      rw [getFormattedBalance_cents, padStart9_data, centsToString_data]
    refine ⟨List.replicate
        (9 - ((natRepr (c / 100)).data ++ '.' :: (twoFrac (c % 100)).data).length)
        '0' ++ (natRepr (c / 100)).data,
      (twoFrac (c % 100)).data, ?_, ?_, hflen, ?_, twoFrac_all_digits _, ?_⟩
    · rw [hdata, List.append_assoc]
    · rw [List.length_append, List.length_replicate, hL]
      omega
    · intro ch hch
      rcases List.mem_append.mp hch with h2 | h2
      · rw [List.eq_of_mem_replicate h2]
        decide
      · exact natRepr_all_digits _ ch h2
    · rw [hdata, List.length_append, List.length_replicate, hL]
      omega
  · have h : roundHalfUp (100 * 1000) = 100000 := by
      rw [roundHalfUp]
      norm_num
    rw [initialBalance, viewBalance, fmt9, jToFixed2, toFixed2,
      if_neg (by norm_num), h]
    simp [centsToString, natRepr, natToRevDigits, twoFrac, padStart9]
    decide

/-- **C8 witness:** the formatted-shape clause instantiated at the fresh
balance of `100000` cents, together with the `viewBalance` scenario. -/
theorem c8_witness :
    (∃ ds fs : List Char,
      (getFormattedBalance (fin (((100000 : ℕ) : ℚ) / 100))).data =
        ds ++ '.' :: fs ∧
      ds.length = 6 ∧ fs.length = 2 ∧
      (∀ ch ∈ ds, ch.isDigit = true) ∧ (∀ ch ∈ fs, ch.isDigit = true) ∧
      (getFormattedBalance (fin (((100000 : ℕ) : ℚ) / 100))).data.length = 9) ∧
    viewBalance initialBalance = "Current balance: 001000.00" :=
  ⟨c8_formatted_fixed_width.1 100000 (by norm_num), c8_formatted_fixed_width.2⟩

/-! ### Parsing ignores trailing junk after a digit run -/

theorem digit_char_props (ch : Char) (h : ch.isDigit = true) :
    isWsChar ch = false ∧ ch ≠ '-' ∧ ch ≠ '+' ∧ ch ≠ 'I' := by
  have hne : ∀ c2 : Char, c2.isDigit = false → ch ≠ c2 := by
    intro c2 h2 heq
    rw [heq, h2] at h
    exact Bool.false_ne_true h
  refine ⟨?_, hne '-' (by decide), hne '+' (by decide), hne 'I' (by decide)⟩
  rw [isWsChar]
  simp only [Bool.or_eq_false_iff, decide_eq_false_iff_not]
  exact ⟨⟨⟨hne ' ' (by decide), hne '\t' (by decide)⟩, hne '\n' (by decide)⟩,
    hne '\r' (by decide)⟩

theorem takeWhile_append_all (p : Char → Bool) (ds junk : List Char)
    (hall : ds.all p = true) (hjt : junk.takeWhile p = [])
    (hjd : junk.dropWhile p = junk) :
    (ds ++ junk).takeWhile p = ds ∧ (ds ++ junk).dropWhile p = junk := by
  induction ds with
  | nil =>
    rw [List.nil_append]
    exact ⟨hjt, hjd⟩
  | cons a t ih =>
    rw [List.all_cons, Bool.and_eq_true] at hall
    obtain ⟨ha, ht⟩ := hall
    obtain ⟨ih1, ih2⟩ := ih ht
    constructor
    · simp [List.cons_append, List.takeWhile_cons, ha, ih1]
    · simp [List.cons_append, List.dropWhile_cons, ha, ih2]

theorem parseFloat_digits_then_junk (ds junk : List Char) (hne : ds ≠ [])
    (hds : ds.all Char.isDigit = true)
    (hjunk : ∀ ch, junk.head? = some ch →
      ch.isDigit = false ∧ ch ≠ '.' ∧ ch ≠ 'e' ∧ ch ≠ 'E') :
    parseFloat (String.mk (ds ++ junk)) = parseFloat (String.mk ds) := by
  cases junk with
  | nil => rw [List.append_nil]
  | cons cj tj =>
    obtain ⟨hjd, hjdot, hje, hjE⟩ := hjunk cj rfl
    obtain ⟨c0, t0, rfl⟩ := List.exists_cons_of_ne_nil hne
    have hc0 : c0.isDigit = true := by
      have h2 := hds
      rw [List.all_cons, Bool.and_eq_true] at h2
      exact h2.1
    obtain ⟨hws, hminus, hplus, hI⟩ := digit_char_props c0 hc0
    suffices h : parseCore (String.mk ((c0 :: t0) ++ (cj :: tj))) =
        parseCore (String.mk (c0 :: t0)) by
      rw [parseFloat, parseFloat, h]
    have hinf : ∀ l : List Char, (c0 :: l).take 8 ≠ "Infinity".data := by
      intro l hcontra
      have h8 : (c0 :: l).take 8 = c0 :: l.take 7 := rfl
      rw [h8, show "Infinity".data = 'I' :: "nfinity".data from rfl] at hcontra
      injection hcontra with h1 _
      exact hI h1
    have hjt : (cj :: tj).takeWhile Char.isDigit = [] := by
      simp [List.takeWhile_cons, hjd]
    have hjdw : (cj :: tj).dropWhile Char.isDigit = cj :: tj := by
      simp [List.dropWhile_cons, hjd]
    obtain ⟨htw, hdw⟩ :=
      takeWhile_append_all Char.isDigit (c0 :: t0) (cj :: tj) hds hjt hjdw
    obtain ⟨htw0, hdw0⟩ :=
      takeWhile_append_all Char.isDigit (c0 :: t0) [] hds rfl rfl
    rw [List.append_nil] at htw0 hdw0
    rw [List.cons_append] at htw hdw
    simp only [parseCore]
    have hwdrop : ∀ l : List Char, List.dropWhile isWsChar (c0 :: l) = c0 :: l := by
      intro l
      simp [List.dropWhile_cons, hws]
    rw [show (c0 :: t0 ++ cj :: tj) = c0 :: (t0 ++ cj :: tj) from rfl,
      hwdrop, hwdrop]
    simp only [List.head?_cons, Option.some.injEq, hminus, hplus, ite_false]
    simp only [parseCoreAfterSign]
    rw [if_neg (hinf _), if_neg (hinf _), htw, hdw, htw0, hdw0]
    simp only [List.head?_cons, List.head?_nil, Option.some.injEq, hjdot,
      ite_false, expVal, hje, hjE, List.append_nil]
    simp [expVal, hje, hjE]

theorem parseFloat_100abc : parseFloat "100abc" = fin 100 := by
  have h : parseCore "100abc" = ⟨.finK, false, 100, 0⟩ := by decide
  rw [parseFloat, h]
  simp [interpPF, pow10]

theorem parseFloat_100 : parseFloat "100" = fin 100 := by
  have h : parseCore "100" = ⟨.finK, false, 100, 0⟩ := by decide
  rw [parseFloat, h]
  simp [interpPF, pow10]

theorem fmt9_1100 : fmt9 (fin 1100) = "001100.00" := by
  have h : roundHalfUp (100 * 1100) = 110000 := by
    rw [roundHalfUp]
    norm_num
  rw [fmt9, jToFixed2, toFixed2, if_neg (by norm_num), h]
  simp [centsToString, natRepr, natToRevDigits, twoFrac, padStart9]
  decide

theorem credit_100abc :
    creditAccount "100abc" (fin 1000) =
      .ok ("Amount credited. New balance: 001100.00", fin 1100) := by
  have hsum : (1000 : ℚ) + 100 = 1100 := by norm_num
  have hr : roundHalfUp (100 * 1100) = 110000 := by
    rw [roundHalfUp]
    norm_num
  have hw : write (fin 1100) = .ok (fin 1100) := by
    rw [write_fin_ok 1100 (by norm_num) (by rw [maxBalance_eq]; norm_num), hr]
    norm_num
  simp only [creditAccount, parseFloat_100abc, jIsNaN,
    jlt_fin_zero_eq_false 100 (by norm_num), Bool.or_self, Bool.false_eq_true,
    if_false, jadd, hsum, hw, fmt9_1100]
  rfl

/-- **C10.** Parsing ignores trailing non-numeric characters: appending junk
that starts with a character that is no digit, `'.'`, `'e'` or `'E'` to a
digit run does not change the parse, and concretely `credit("100abc")` is
accepted as a credit of `100` rather than rejected. -/
theorem c10_trailing_junk_accepted :
    (∀ ds junk : List Char, ds ≠ [] → ds.all Char.isDigit = true →
      (∀ ch, junk.head? = some ch →
        ch.isDigit = false ∧ ch ≠ '.' ∧ ch ≠ 'e' ∧ ch ≠ 'E') →
      parseFloat (String.mk (ds ++ junk)) = parseFloat (String.mk ds)) ∧
    parseFloat "100abc" = parseFloat "100" ∧
    creditAccount "100abc" (fin 1000) =
      .ok ("Amount credited. New balance: 001100.00", fin 1100) :=
  ⟨parseFloat_digits_then_junk,
   by rw [parseFloat_100abc, parseFloat_100],
   credit_100abc⟩

/-- **C10 witness:** the junk-suffix clause applied at `"100" ++ "abc"`. -/
theorem c10_witness :
    parseFloat (String.mk ("100".data ++ "abc".data)) =
      parseFloat (String.mk "100".data) :=
  c10_trailing_junk_accepted.1 "100".data "abc".data (by decide) (by decide)
    (by
      intro ch h
      have h3 : (some 'a' : Option Char) = some ch := h
      injection h3 with h4
      subst h4
      exact ⟨by decide, by decide, by decide, by decide⟩)
